import Mathlib

/-!
# PurePyJasper — formal model of the report engine

A shallow embedding of the `pyjasper_lib` report engine
(`parsers.py`, `database.py`, `renderers.py`, `core.py`).

Conventions of the embedding:
* Python `str` values are modelled as `Str := List Char`; scanning,
  substitution and slicing functions are transcribed structurally from the
  Python string/regex operations they model.
* Python dictionaries (which preserve insertion order) are modelled as
  association lists; assignment updates the first matching key in place and
  appends new keys at the end, exactly like a Python `dict`.
* Python scalar values stored in rows / variable maps are modelled by
  `PyVal` (strings, integers and `None`).  The engine accumulates sums in a
  Python `float`; on the integer inputs appearing in this development float
  arithmetic is exact, so sums are modelled as `Int`.
* Fallible operations (database queries) are modelled with `Except`.
-/

namespace PyJasper

/-- Python strings, modelled as lists of characters. -/
abbrev Str := List Char

/-- A Python scalar value as it occurs in data rows, variable maps and
parameter maps: a string, a number, or `None`. -/
inductive PyVal where
  | str : Str → PyVal
  | int : Int → PyVal
  | none : PyVal
  deriving DecidableEq, Repr

/-- A data row: a Python `dict` from column name to value, as an ordered
association list. -/
abbrev Row := List (Str × PyVal)

/-- A variable/parameter map (`self.variables`, `self.parameters`). -/
abbrev VarMap := List (Str × PyVal)

/-- Python `d.get(k)` / `d.get(k, default)` lookup: first entry with the key. -/
def dictGet? (m : List (Str × PyVal)) (k : Str) : Option PyVal :=
  (m.find? (fun p => p.1 = k)).map (·.2)

/-- Python `d.get(k, default)`. -/
def dictGet (m : List (Str × PyVal)) (k : Str) (dflt : PyVal) : PyVal :=
  (dictGet? m k).getD dflt

/-- Python `d[k] = v`: update the first entry holding `k`, else append a new
entry at the end (dicts preserve insertion order). -/
def dictSet : List (Str × PyVal) → Str → PyVal → List (Str × PyVal)
  | [], k, v => [(k, v)]
  | (k', v') :: t, k, v =>
    if k' = k then (k', v) :: t else (k', v') :: dictSet t k v

/-! ## `database.py` — `DataProcessor` -/

/-- One step of `DataProcessor.group_by`'s loop body
(`database.py:270-274`): `if key not in groups: groups[key] = [];
groups[key].append(row)` on the insertion-ordered dict `groups`. -/
def insertRow : List (PyVal × List Row) → PyVal → Row → List (PyVal × List Row)
  | [], k, r => [(k, [r])]
  | (k', rs) :: t, k, r =>
    if k' = k then (k', rs ++ [r]) :: t else (k', rs) :: insertRow t k r

/-- Model of `DataProcessor.group_by` (`database.py:267-275`): groups rows into a
Python dict keyed by `row.get(field)` (`None` when the key is absent),
preserving first-occurrence key order. -/
def groupBy (data : List Row) (field : Str) : List (PyVal × List Row) :=
  data.foldl (fun acc r => insertRow acc (dictGet r field PyVal.none) r) []

/-- Parse a Python `str` consisting only of decimal digits as a number
(the shapes of numeric strings exercised in this development; `float(...)`
in the source accepts more forms, none of which occur below). -/
def digitsVal? (s : Str) : Option Int :=
  if s ≠ [] ∧ s.all Char.isDigit then
    some (s.foldl (fun n c => n * 10 + (c.toNat - 48)) 0)
  else none

/-- Model of `DataProcessor.calculate_sum` (`database.py:277-290`): sums
`row.get(field, 0)` over the rows, adding numeric values, parsing numeric
strings and silently skipping everything else.  The source accumulates in a
Python `float`; on integer inputs the result is exact, modelled as `Int`. -/
def calculateSum (rows : List Row) (field : Str) : Int :=
  rows.foldl
    (fun total r =>
      match dictGet r field (PyVal.int 0) with
      | PyVal.int n => total + n
      | PyVal.str s => match digitsVal? s with
        | some n => total + n
        | Option.none => total
      | PyVal.none => total)
    0

/-! ## `parsers.py` — string scanning primitives

The regex and `str` operations used by `JRXMLParser` and
`ExpressionEvaluator`, transcribed as structurally recursive scanners on
`List Char`.  Recursions that advance by computed offsets carry a fuel
argument initialised to the string length; one character is consumed per
step, so the fuel never runs out on the initial call. -/

/-- The left-brace character, via its code point (braces inside literals
denote interpolation). -/
def lbrace : Char := Char.ofNat 123

/-- The right-brace character. -/
def rbrace : Char := Char.ofNat 125

/-- The dollar character. -/
def dollar : Char := Char.ofNat 36

/-- The double-quote character. -/
def dquote : Char := Char.ofNat 34

/-- The apostrophe character. -/
def squote : Char := Char.ofNat 39

/-- The backslash character. -/
def bslash : Char := Char.ofNat 92

/-- Attempt to match the tail of the regex `\$X\{([^}]+)\}` (for `X` the
given tag character) at the start of `cs`, which follows a `$` already
consumed by the caller.  Returns the captured name and the remainder after
the closing brace.  `[^}]+` demands a nonempty name and a closing brace. -/
def refMatch (tag : Char) : Str → Option (Str × Str)
  | t :: ob :: rest =>
    if t = tag ∧ ob = lbrace then
      let name := rest.takeWhile (fun c => c ≠ rbrace)
      if name ≠ [] ∧ name.length < rest.length then
        some (name, rest.drop (name.length + 1))
      else none
    else none
  | _ => none

/-- Left-to-right, non-overlapping substitution of every `\$X\{name\}`
match by `mk name`, as performed by `re.sub` in
`ExpressionEvaluator.evaluate` (`parsers.py:401-413`).  On no match the
scan advances one character, exactly like the regex engine. -/
def subRefAux (tag : Char) (mk : Str → Str) : Nat → Str → Str
  | _, [] => []
  | 0, l => l
  | fuel + 1, c :: cs =>
    if c = dollar then
      match refMatch tag cs with
      | some (name, tail) => mk name ++ subRefAux tag mk fuel tail
      | none => c :: subRefAux tag mk fuel cs
    else c :: subRefAux tag mk fuel cs

/-- Run the reference substitution with sufficient fuel. -/
def subRef (tag : Char) (mk : Str → Str) (s : Str) : Str :=
  subRefAux tag mk s.length s

/-- Model of the `re.findall(r'\$F\{([^}]+)\}', s)`-style capture collection
(`core.py:237`, `renderers.py:194`): all captured names, left to right. -/
def findRefsAux (tag : Char) : Nat → Str → List Str
  | _, [] => []
  | 0, _ => []
  | fuel + 1, c :: cs =>
    if c = dollar then
      match refMatch tag cs with
      | some (name, tail) => name :: findRefsAux tag fuel tail
      | none => findRefsAux tag fuel cs
    else findRefsAux tag fuel cs

/-- All `$X{name}` capture groups in `s`. -/
def findRefs (tag : Char) (s : Str) : List Str :=
  findRefsAux tag s.length s

/-- Model of the `re.search(r'\$F\{([^}]+)\}', s)`: the first capture group, if any
(`renderers.py:194,221,381`). -/
def firstRef (tag : Char) (s : Str) : Option Str :=
  (findRefs tag s).head?

/-- Python `s.replace(pat, rep)`: left-to-right non-overlapping
replacement; the replacement text is not rescanned. -/
def replaceAux (pat rep : Str) : Nat → Str → Str
  | _, [] => []
  | 0, l => l
  | fuel + 1, c :: cs =>
    if pat.isPrefixOf (c :: cs) then
      rep ++ replaceAux pat rep fuel ((c :: cs).drop pat.length)
    else c :: replaceAux pat rep fuel cs

/-- Python `s.replace(pat, rep)` (for the nonempty patterns used here). -/
def pyReplace (s pat rep : Str) : Str :=
  replaceAux pat rep s.length s

/-- Python `pat in s` substring test. -/
def containsSub (pat : Str) : Str → Bool
  | [] => decide (pat = [])
  | c :: cs => pat.isPrefixOf (c :: cs) || containsSub pat cs

/-- The whitespace characters removed by Python `str.strip()`. -/
def pySpace (c : Char) : Bool :=
  c = ' ' ∨ c = '\t' ∨ c = '\n' ∨ c = '\x0b' ∨ c = '\x0c' ∨ c = '\r'

/-- Python `str.strip()`. -/
def pyStrip (s : Str) : Str :=
  ((s.dropWhile pySpace).reverse.dropWhile pySpace).reverse

/-- Python `str.lower()` (ASCII inputs). -/
def pyLower (s : Str) : Str := s.map Char.toLower

/-- Python `str.upper()` (ASCII inputs). -/
def pyUpper (s : Str) : Str := s.map Char.toUpper

/-- Python `str(n)` for an integer. -/
def intStr (n : Int) : Str := (toString n).data

/-- Python `str(n)` for a natural number. -/
def natStr (n : Nat) : Str := (toString n).data

/-! ## `parsers.py` — `ExpressionEvaluator` -/

/-- The literal-data escape prefix `<![CDATA[`. -/
def cdataPre : Str := "<![CDATA[".data

/-- The literal-data escape suffix `]]>`. -/
def cdataSuf : Str := "]]>".data

/-- The CDATA-unwrapping step shared by `ExpressionEvaluator.evaluate`
(`parsers.py:397-398`) and `JRXMLParser._parse_query`
(`parsers.py:144-145`): when the string starts with `<![CDATA[` and ends
with `]]>`, keep the Python slice `[9:-3]`. -/
def stripCDATA (e : Str) : Str :=
  if cdataPre.isPrefixOf e ∧ cdataSuf.isSuffixOf e then
    (e.drop 9).take (e.length - 12)
  else e

/-- The prefix of the Python source text `self.<obj>.get('` that the
reference substitutions produce. -/
def getCallPre (obj : Str) : Str := "self.".data ++ obj ++ ".get(\x27".data

/-- The suffix `', '')` of the produced `get` call. -/
def getCallSuf : Str := "\x27, \x27\x27)".data

/-- The replacement text `self.<obj>.get('<name>', '')` substituted for a
reference (`parsers.py:401-413`). -/
def getCall (obj name : Str) : Str := getCallPre obj ++ name ++ getCallSuf

/-- The `$F{name}` substitution (`parsers.py:401-403`). -/
def subF (e : Str) : Str := subRef 'F' (getCall ("data".data)) e

/-- The `$V{name}` substitution (`parsers.py:406-408`). -/
def subV (e : Str) : Str := subRef 'V' (getCall ("variables".data)) e

/-- The `$P{name}` substitution (`parsers.py:411-413`). -/
def subP (e : Str) : Str := subRef 'P' (getCall ("parameters".data)) e

/-- The string-concatenation rewriting of `evaluate`
(`parsers.py:416-418`): replace `' + '` by `' + str('`; then, if
`' + str('` occurs, replace it by `') + str('` and append `')'`. -/
def plusRewrite (e : Str) : Str :=
  let e1 := pyReplace e (" + ".data) (" + str(".data)
  if containsSub (" + str(".data) e1 then
    pyReplace e1 (" + str(".data) (") + str(".data) ++ ")".data
  else e1

/-- The full textual transformation `evaluate` applies to an expression
before attempting evaluation (`parsers.py:396-418`): CDATA unwrapping, the
three reference substitutions, then concatenation rewriting. -/
def transformExpr (e : Str) : Str :=
  plusRewrite (subP (subV (subF (stripCDATA e))))

/-- If `pre` is a prefix of `e`, the remainder. -/
def stripPre (pre e : Str) : Option Str :=
  if pre.isPrefixOf e then some (e.drop pre.length) else none

/-- If `suf` is a suffix of `e`, the front. -/
def stripSuf (suf e : Str) : Option Str :=
  if suf.isSuffixOf e then some (e.take (e.length - suf.length)) else none

/-- Recognize the Python source text `self.<obj>.get('<name>', '')` and
return the name.  Names containing a quote or backslash are rejected: for
those the produced text is not this `get` call (the quote terminates the
Python string literal early). -/
def getCallArg (obj e : Str) : Option Str :=
  match stripPre (getCallPre obj) e with
  | some rest =>
    match stripSuf getCallSuf rest with
    | some name =>
      if squote ∉ name ∧ bslash ∉ name then some name else Option.none
    | Option.none => Option.none
  | Option.none => Option.none

/-- A Python integer literal: nonempty digits, no leading zero (except
`0` itself), as accepted by `eval`. -/
def intLit? (s : Str) : Option Int :=
  if s ≠ [] ∧ s.all Char.isDigit ∧ (s.length = 1 ∨ s.head? ≠ some '0') then
    some (s.foldl (fun n c => n * 10 + (c.toNat - 48)) 0)
  else Option.none

/-- Model of the Python `eval` call in `ExpressionEvaluator.evaluate`
(`parsers.py:427`) on the expression forms reachable through the
substitutions above: the generated `self.<obj>.get('name', '')` calls
(returning the map lookup with `''` default) and plain integer literals.
Every other input is treated as an evaluation failure; each such input
occurring in this development is a Python `SyntaxError` for `eval`. -/
def pyEvalModel (data vars parameters : VarMap) (e : Str) : Option PyVal :=
  match getCallArg ("data".data) e with
  | some n => some (dictGet data n (PyVal.str []))
  | Option.none =>
    match getCallArg ("variables".data) e with
    | some n => some (dictGet vars n (PyVal.str []))
    | Option.none =>
      match getCallArg ("parameters".data) e with
      | some n => some (dictGet parameters n (PyVal.str []))
      | Option.none =>
        match intLit? e with
        | some k => some (PyVal.int k)
        | Option.none => Option.none

/-- Python `str(v)` on a `PyVal`. -/
def pyValStr : PyVal → Str
  | PyVal.str s => s
  | PyVal.int n => intStr n
  | PyVal.none => "None".data

/-- Model of `ExpressionEvaluator.evaluate` (`parsers.py:391-429`), parameterized by
the `eval` oracle `ev`: empty expressions yield `''`; otherwise the
expression is transformed textually, double-quoted results are unquoted
(`e[1:-1]`), evaluable results are converted with `str`, and an evaluation
failure (the bare `except`) returns the transformed text itself. -/
def evaluateWith (ev : Str → Option PyVal) (expression : Str) : Str :=
  if expression = [] then []
  else
    let e := transformExpr expression
    if [dquote].isPrefixOf e ∧ [dquote].isSuffixOf e then
      (e.drop 1).take (e.length - 2)
    else
      match ev e with
      | some v => pyValStr v
      | Option.none => e

/-- Model of `ExpressionEvaluator.evaluate` with the `eval` model instantiated for
an evaluator constructed from `data`, `variables`, `parameters`. -/
def evaluate (data vars parameters : VarMap) (expression : Str) : Str :=
  evaluateWith (pyEvalModel data vars parameters) expression

/-! ## `parsers.py` — data model (`parsers.py:12-79`) -/

/-- Dataclass `Field` (`parsers.py:12-17`). -/
structure Field where
  name : Str
  className : Str := "java.lang.String".data
  description : Option Str := Option.none
  deriving DecidableEq, Repr

/-- Dataclass `Variable` (`parsers.py:20-29`). -/
structure Variable where
  name : Str
  className : Str := "java.lang.String".data
  calculation : Str := "Nothing".data
  expression : Option Str := Option.none
  initialValue : Option Str := Option.none
  resetType : Str := "Report".data
  resetGroup : Option Str := Option.none
  deriving DecidableEq, Repr

/-- Dataclass `Group` (`parsers.py:32-39`). -/
structure Group where
  name : Str
  expression : Str
  headerHeight : Int := 0
  footerHeight : Int := 0
  vars : List Variable := []
  deriving DecidableEq, Repr

/-- The style attributes `_parse_style` collects (`parsers.py:327-352`); in
the source a `Dict[str, Any]`, here a structure with one optional field per
possible key (absent key = `none`). -/
structure ElemStyle where
  textAlignment : Option Str := Option.none
  verticalAlignment : Option Str := Option.none
  fontSize : Option Int := Option.none
  fontName : Option Str := Option.none
  isBold : Option Bool := Option.none
  isItalic : Option Bool := Option.none
  isUnderline : Option Bool := Option.none
  deriving DecidableEq, Repr

/-- Dataclass `ReportElement` (`parsers.py:42-52`). -/
structure ReportElement where
  x : Int
  y : Int
  width : Int
  height : Int
  elementType : Str
  content : Option Str := Option.none
  expression : Option Str := Option.none
  style : ElemStyle := {}
  deriving DecidableEq, Repr

/-- Dataclass `Band` (`parsers.py:55-60`). -/
structure Band where
  name : Str
  height : Int
  elements : List ReportElement := []
  deriving DecidableEq, Repr

/-- A parameter spec as stored by `_parse_parameters`
(`parsers.py:375-378`). -/
structure ParamSpec where
  className : Str := "java.lang.String".data
  defaultValue : Option Str := Option.none
  deriving DecidableEq, Repr

/-- Dataclass `ReportDefinition` (`parsers.py:63-79`); the `bands` dict is an
insertion-ordered association list. -/
structure ReportDefinition where
  name : Str
  pageWidth : Int := 595
  pageHeight : Int := 842
  columnWidth : Int := 555
  leftMargin : Int := 20
  rightMargin : Int := 20
  topMargin : Int := 20
  bottomMargin : Int := 20
  query : Option Str := Option.none
  fields : List Field := []
  vars : List Variable := []
  groups : List Group := []
  bands : List (Str × Band) := []
  parameters : List (Str × ParamSpec) := []
  deriving DecidableEq, Repr

/-- Membership of a key in the `bands` dict (`'groupHeader' in
self.report_def.bands`, `renderers.py:203,228` etc.). -/
def hasBandKey (bands : List (Str × Band)) (k : Str) : Bool :=
  (bands.find? (fun p => p.1 = k)).isSome

/-- Lookup of a band by key (`self.report_def.bands['title']`). -/
def getBand? (bands : List (Str × Band)) (k : Str) : Option Band :=
  (bands.find? (fun p => p.1 = k)).map (·.2)

/-! ## `parsers.py` — `JRXMLParser` -/

/-- Model of `JRXMLParser._parse_query` (`parsers.py:135-147`), given the text of
the located `queryString` element (`none` when the element is absent or
has no text).  An empty text is falsy in Python and also yields `None`;
otherwise the text is stripped, one `<![CDATA[...]]>` wrapper is removed
via the slice `[9:-3]`, and the result is stripped again. -/
def parseQuery (text : Option Str) : Option Str :=
  match text with
  | Option.none => Option.none
  | some t =>
    if t = [] then Option.none
    else some (pyStrip (stripCDATA (pyStrip t)))

/-- The fixed list of band kinds `_parse_bands` looks for
(`parsers.py:254-257`). -/
def bandTypes : List Str :=
  ["title".data, "pageHeader".data, "columnHeader".data, "detail".data,
   "columnFooter".data, "pageFooter".data, "lastPageFooter".data, "summary".data]

/-- Model of `JRXMLParser._parse_bands` (`parsers.py:250-270`): for each band kind
in `bandTypes`, look it up in the document (the XML lookup
`root.find(f'.//jr:{band_type}/jr:band')` together with the height/element
extraction is abstracted as `find`), and store the found bands in a dict
keyed by band kind, in loop order. -/
def parseBands (find : Str → Option Band) : List (Str × Band) :=
  bandTypes.filterMap (fun bt => (find bt).map (fun b => (bt, b)))

/-! ## `core.py` — `JasperReport.validate_report` -/

/-- The issue string `f"Referenced field '{field_ref}' not defined"`
(`core.py:240`). -/
def refIssueStr (name : Str) : Str :=
  "Referenced field \x27".data ++ name ++ "\x27 not defined".data

/-- Python truthiness of an optional string (`None` and `''` are falsy). -/
def truthyStr : Option Str → Bool
  | Option.none => false
  | some s => s ≠ []

/-- The dangling-`$F{}`-reference issues collected by the nested loops of
`validate_report` (`core.py:232-240`): for every band, every element with
a truthy expression, every `$F{name}` capture whose name matches no
declared field, one issue (duplicates included, in scan order). -/
def fieldRefIssues (rd : ReportDefinition) : List Str :=
  rd.bands.flatMap (fun bp =>
    bp.2.elements.flatMap (fun el =>
      if truthyStr el.expression then
        (findRefs 'F' (el.expression.getD [])).filterMap (fun name =>
          if rd.fields.any (fun f => f.name = name) then Option.none
          else some (refIssueStr name))
      else []))

/-- The result dictionary of `validate_report` (`core.py:251-260`). -/
structure ValidationResult where
  valid : Bool
  issues : List Str
  warnings : List Str
  databaseStatus : Str
  totalFields : Nat
  totalVariables : Nat
  totalGroups : Nat
  totalBands : Nat
  deriving DecidableEq, Repr

/-- Model of `JasperReport.validate_report` (`core.py:210-260`).  `data` is the
facade's bound row list, `dbTest` the configured database engine's
`test_connection()` outcome (`none` when no engine is configured). -/
def validateReport (rd : ReportDefinition) (data : List Row)
    (dbTest : Option Bool) : ValidationResult :=
  let warnings :=
    (if rd.fields = [] then ["No fields defined in report".data] else []) ++
    (if ¬ hasBandKey rd.bands ("detail".data) then ["No detail band defined".data] else [])
  let issues :=
    (if ¬ truthyStr rd.query ∧ data = [] then
      ["No query defined and no data provided".data] else []) ++
    fieldRefIssues rd ++
    (match dbTest with
     | Option.none => []
     | some true => []
     | some false => ["Database connection test failed".data])
  { valid := issues = []
    issues := issues
    warnings := warnings
    databaseStatus :=
      match dbTest with
      | Option.none => "Not configured".data
      | some true => "Connected".data
      | some false => "Connection failed".data
    totalFields := rd.fields.length
    totalVariables := rd.vars.length
    totalGroups := rd.groups.length
    totalBands := rd.bands.length }

/-! ## `core.py` — `JasperReport.preview_data` -/

/-- The row-limiting clause appended by `preview_data`
(`core.py:277-283`): `" LIMIT {limit}"` for the three supported database
kinds, when the query does not already mention `LIMIT`. -/
def buildPreviewQuery (dbType q : Str) (limit : Nat) : Str :=
  if containsSub ("LIMIT".data) (pyUpper q) then q
  else if dbType = "sqlite".data ∨ dbType = "mysql".data ∨ dbType = "postgresql".data then
    q ++ " LIMIT ".data ++ natStr limit
  else q

/-- Model of `JasperReport.preview_data` (`core.py:262-293`).  `exec` is the
database engine's `execute_query`, with `Except.error` modelling a raised
exception; `dbType` is `none` when no engine is configured. -/
def previewData (data : List Row) (dbType : Option Str) (query : Option Str)
    (exec : Str → Except Str (List Row)) (limit : Nat) : List Row :=
  if data = [] then
    match dbType, query with
    | some dbt, some q =>
      if q = [] then []
      else
        match exec (buildPreviewQuery dbt q limit) with
        | Except.ok rows => rows.take limit
        | Except.error _ => []
    | _, _ => []
  else data.take limit

/-! ## `renderers.py` — `HTMLRenderer`

The renderer's mutable instance state (`self.variables`, mutated while
rendering grouped content and the summary) is threaded explicitly: functions
that mutate it return the updated map.  `self.current_page` and
`self.total_pages` are set to `1` in `BaseRenderer.__init__` and never
reassigned, so they appear as the constant `1`. -/

/-- Python `sep.join(parts)`. -/
def strJoin (sep : Str) : List Str → Str
  | [] => []
  | [p] => p
  | p :: ps => p ++ sep ++ strJoin sep ps

/-- The currency formatting `f"${float(content):.2f}"` of
`_render_element` (`renderers.py:334-340`), modelled for plain decimal
literals with at most two fraction digits — the only shapes produced in
this development; other inputs are treated as `float(...)` parse failures
(the `except` branch keeps the content unchanged). -/
def currencyFmt? (s : Str) : Option Str :=
  let sign : Str := if s.head? = some '-' then "-".data else []
  let t := if s.head? = some '-' then s.drop 1 else s
  let ip := t.takeWhile (fun c => c ≠ '.')
  let rest := t.drop ip.length
  if ¬ ip.all Char.isDigit then Option.none
  else
    match rest with
    | [] => if ip ≠ [] then some ("$".data ++ sign ++ ip ++ ".00".data) else Option.none
    | d :: fr =>
      if d = '.' ∧ fr.all Char.isDigit ∧ (ip ≠ [] ∨ fr ≠ []) ∧ fr ≠ [] ∧ fr.length ≤ 2 then
        some ("$".data ++ sign ++ (if ip = [] then "0".data else ip) ++ ".".data ++
              fr ++ List.replicate (2 - fr.length) '0')
      else Option.none

/-- An `ExpressionEvaluator(data, variables, parameters)` instance:
the constructor's three arguments (`parsers.py:386-389`). -/
structure EvalCtx where
  data : VarMap
  vars : VarMap
  parameters : VarMap
  deriving Repr

/-- Model of `HTMLRenderer._render_element` (`renderers.py:280-344`): pick the
content (static text, or the evaluated/raw expression), assemble the
inline CSS from the element's geometry and style, apply the
amount/salary currency heuristic, and emit the positioned `div`.
`rvars`/`params` are the renderer's `self.variables`/`self.parameters`
used when the method builds its own evaluator. -/
def renderElement (rvars params : VarMap) (el : ReportElement)
    (rowData : VarMap) (ev0 : Option EvalCtx) : Str :=
  let ev := if ev0.isNone ∧ rowData ≠ [] then some ⟨rowData, rvars, params⟩ else ev0
  let content : Str :=
    if el.elementType = "staticText".data ∧ truthyStr el.content then
      el.content.getD []
    else if el.elementType = "textField".data ∧ truthyStr el.expression then
      match ev with
      | some c => evaluate c.data c.vars c.parameters (el.expression.getD [])
      | Option.none => el.expression.getD []
    else []
  let styleParts : List Str :=
    ["left: ".data ++ intStr el.x ++ "px".data,
     "top: ".data ++ intStr el.y ++ "px".data,
     "width: ".data ++ intStr el.width ++ "px".data,
     "height: ".data ++ intStr el.height ++ "px".data,
     "border: 1px solid black".data,
     "box-sizing: border-box".data,
     "padding: 2px".data]
    ++ (match el.style.fontSize with
        | some n => ["font-size: ".data ++ intStr n ++ "px".data]
        | Option.none => [])
    ++ (match el.style.fontName with
        | some f => ["font-family: ".data ++ f]
        | Option.none => [])
    ++ (if el.style.isBold.getD false then ["font-weight: bold".data] else [])
    ++ (if el.style.isItalic.getD false then ["font-style: italic".data] else [])
    ++ (let alignment := pyLower (el.style.textAlignment.getD ("Left".data))
        if alignment = "center".data then ["text-align: center".data]
        else if alignment = "right".data then ["text-align: right".data]
        else if alignment = "justify".data then ["text-align: justify".data]
        else [])
  let style := strJoin ("; ".data) styleParts
  let content :=
    if containsSub ("amount".data) (pyLower (el.expression.getD [])) ∨
       containsSub ("salary".data) (pyLower (el.expression.getD [])) then
      if content ≠ [] ∧ (match el.expression with
                         | some e => decide (content ≠ e)
                         | Option.none => true) = true then
        (currencyFmt? content).getD content
      else content
    else content
  "<div class=\x22element ".data ++ el.elementType ++ "\x22 style=\x22".data ++
    style ++ "\x22>".data ++ content ++ "</div>".data

/-- The `html += self._render_element(...)` loop over a band's elements. -/
def renderBandElems (rvars params : VarMap) (b : Band) (rowData : VarMap)
    (ev : Option EvalCtx) : Str :=
  b.elements.foldl (fun acc el => acc ++ renderElement rvars params el rowData ev) []

/-- The band `div` wrapper `f'<div class="{cls}" style="height: {h}px;">'`. -/
def bandOpen (cls : Str) (h : Int) : Str :=
  "<div class=\x22".data ++ cls ++ "\x22 style=\x22height: ".data ++ intStr h ++ "px;\x22>".data

/-- Model of `HTMLRenderer._render_title` (`renderers.py:140-152`): empty when the
band is absent; elements are rendered with empty row data and no
evaluator. -/
def renderTitle (rd : ReportDefinition) (rvars params : VarMap) : Str :=
  match getBand? rd.bands ("title".data) with
  | Option.none => []
  | some b =>
    bandOpen ("band title-band".data) b.height ++
      renderBandElems rvars params b [] Option.none ++ "</div>".data

/-- Model of `HTMLRenderer._render_page_header` (`renderers.py:154-166`). -/
def renderPageHeader (rd : ReportDefinition) (rvars params : VarMap) : Str :=
  match getBand? rd.bands ("pageHeader".data) with
  | Option.none => []
  | some b =>
    bandOpen ("band page-header".data) b.height ++
      renderBandElems rvars params b [] Option.none ++ "</div>".data

/-- Model of `HTMLRenderer._render_column_header` (`renderers.py:253-262`). -/
def renderColumnHeader (rd : ReportDefinition) (rvars params : VarMap) : Str :=
  match getBand? rd.bands ("columnHeader".data) with
  | Option.none => []
  | some b =>
    bandOpen ("band".data) b.height ++
      renderBandElems rvars params b [] Option.none ++ "</div>".data

/-- Model of `HTMLRenderer._render_detail_row` (`renderers.py:264-278`): renders
the detail band against one row, with an evaluator over
`(row, self.variables, self.parameters)`. -/
def renderDetailRow (rd : ReportDefinition) (rvars params : VarMap)
    (row : Row) : Str :=
  match getBand? rd.bands ("detail".data) with
  | Option.none => []
  | some b =>
    bandOpen ("band".data) b.height ++
      renderBandElems rvars params b row (some ⟨row, rvars, params⟩) ++ "</div>".data

/-- Model of `HTMLRenderer._render_simple_content` (`renderers.py:239-251`). -/
def renderSimpleContent (rd : ReportDefinition) (data : List Row)
    (rvars params : VarMap) : Str :=
  (if hasBandKey rd.bands ("columnHeader".data) then
    renderColumnHeader rd rvars params else []) ++
  data.foldl (fun acc row => acc ++ renderDetailRow rd rvars params row) []

/-- The `self.variables[variable.name] = total` update loop shared by
`_render_grouped_content` (`renderers.py:217-225`) and `_render_summary`
(`renderers.py:376-385`): for every report variable with calculation
`Sum` whose expression contains a `$F{field}` reference, assign the sum
of that field over `rows`. -/
def updateSumVars (varDefs : List Variable) (rows : List Row)
    (vs : VarMap) : VarMap :=
  varDefs.foldl
    (fun acc v =>
      if v.calculation = "Sum".data then
        match firstRef 'F' (v.expression.getD []) with
        | some f => dictSet acc v.name (PyVal.int (calculateSum rows f))
        | Option.none => acc
      else acc)
    vs

/-- One iteration of `_render_grouped_content`'s loop over the grouped
data (`renderers.py:201-235`): optional group-header band (evaluated
against `{group_field: group_value}`), the group's detail rows, the
`Sum`-variable update from the group's rows, then the optional
group-footer band (evaluated against the updated variables).  The state is
`(accumulated html, self.variables, the variable maps seen at each group
footer so far)`. -/
def renderGroup (rd : ReportDefinition) (params : VarMap) (gf : Str)
    (st : Str × VarMap × List VarMap) (p : PyVal × List Row) :
    Str × VarMap × List VarMap :=
  let html := st.1
  let vs := st.2.1
  let snaps := st.2.2
  let headerHtml :=
    match getBand? rd.bands ("groupHeader".data) with
    | some b =>
      bandOpen ("band".data) b.height ++
        renderBandElems vs params b [(gf, p.1)] (some ⟨[(gf, p.1)], vs, params⟩) ++
        "</div>".data
    | Option.none => []
  let detailHtml :=
    p.2.foldl (fun acc row => acc ++ renderDetailRow rd vs params row) []
  let vs' := updateSumVars rd.vars p.2 vs
  let footerHtml :=
    match getBand? rd.bands ("groupFooter".data) with
    | some b =>
      bandOpen ("band".data) b.height ++
        renderBandElems vs' params b [] (some ⟨[], vs', params⟩) ++ "</div>".data
    | Option.none => []
  (html ++ headerHtml ++ detailHtml ++ footerHtml, vs', snaps ++ [vs'])

/-- Model of `HTMLRenderer._render_grouped_content` (`renderers.py:183-237`):
single-level grouping over the first group's `$F{...}` field; falls back
to simple content when the group expression holds no field reference. -/
def renderGroupedContent (rd : ReportDefinition) (data : List Row)
    (params : VarMap) (vs0 : VarMap) : Str × VarMap × List VarMap :=
  match rd.groups with
  | [] => (renderSimpleContent rd data vs0 params, vs0, [])
  | g :: _ =>
    match firstRef 'F' g.expression with
    | Option.none => (renderSimpleContent rd data vs0 params, vs0, [])
    | some gf => (groupBy data gf).foldl (renderGroup rd params gf) ([], vs0, [])

/-- Model of `HTMLRenderer._render_content` (`renderers.py:168-181`). -/
def renderContent (rd : ReportDefinition) (data : List Row)
    (params : VarMap) (vs0 : VarMap) : Str × VarMap × List VarMap :=
  if data = [] then ("<div class=\x22no-data\x22>No data available</div>".data, vs0, [])
  else if rd.groups ≠ [] then renderGroupedContent rd data params vs0
  else (renderSimpleContent rd data vs0 params, vs0, [])

/-- Model of `HTMLRenderer._render_page_footer` (`renderers.py:346-365`): the
footer's evaluator sees only the page pseudo-variables
(`PAGE_NUMBER = self.current_page = 1`, `PAGE_COUNT = self.total_pages = 1`),
not `self.variables`. -/
def renderPageFooter (rd : ReportDefinition) (params : VarMap) : Str :=
  match getBand? rd.bands ("pageFooter".data) with
  | Option.none => []
  | some b =>
    let pageVars : VarMap :=
      [("PAGE_NUMBER".data, PyVal.int 1), ("PAGE_COUNT".data, PyVal.int 1)]
    bandOpen ("band page-footer".data) b.height ++
      renderBandElems [] params b [] (some ⟨[], pageVars, params⟩) ++ "</div>".data

/-- Model of `HTMLRenderer._render_summary` (`renderers.py:367-393`): absent band
renders nothing and leaves the variables untouched; otherwise every `Sum`
variable is set to its whole-data total and the band is rendered against
the updated variables.  Returns the html and the updated
`self.variables`. -/
def renderSummary (rd : ReportDefinition) (data : List Row)
    (params : VarMap) (vs : VarMap) : Str × VarMap :=
  match getBand? rd.bands ("summary".data) with
  | Option.none => ([], vs)
  | some b =>
    let vs' := updateSumVars rd.vars data vs
    (bandOpen ("band summary-band".data) b.height ++
      renderBandElems vs' params b [] (some ⟨[], vs', params⟩) ++ "</div>".data, vs')

/-- Model of `HTMLRenderer._generate_css` (`renderers.py:73-138`): a fixed style
sheet parameterized only by the template's page width and margins. -/
def cssStyles (rd : ReportDefinition) : Str :=
  "\n        body \x7b\n            font-family: \x27Times New Roman\x27, serif;\n            margin: 0;\n            padding: 0;\n            background-color: white;\n        \x7d\n        \n        .report-container \x7b\n            max-width: ".data ++
  intStr rd.pageWidth ++
  "px;\n            margin: 0 auto;\n            background-color: white;\n            padding: ".data ++
  intStr rd.topMargin ++ "px ".data ++ intStr rd.rightMargin ++ "px ".data ++
  intStr rd.bottomMargin ++ "px ".data ++ intStr rd.leftMargin ++
  "px;\n        \x7d\n        \n        .band \x7b\n            width: 100%;\n            position: relative;\n        \x7d\n        \n        .element \x7b\n            position: absolute;\n            overflow: hidden;\n        \x7d\n        \n        .static-text \x7b\n            font-weight: normal;\n        \x7d\n        \n        .text-field \x7b\n            font-weight: normal;\n        \x7d\n        \n        .bold \x7b font-weight: bold; \x7d\n        .italic \x7b font-style: italic; \x7d\n        .underline \x7b text-decoration: underline; \x7d\n        \n        .align-left \x7b text-align: left; \x7d\n        .align-center \x7b text-align: center; \x7d\n        .align-right \x7b text-align: right; \x7d\n        .align-justify \x7b text-align: justify; \x7d\n        \n        table \x7b\n            width: 100%;\n            border-collapse: collapse;\n        \x7d\n        \n        th, td \x7b\n            border: 1px solid black;\n            padding: 4px;\n            text-align: left;\n            vertical-align: middle;\n        \x7d\n        \n        th \x7b\n            background-color: #d3d3d3;\n            font-weight: bold;\n        \x7d\n        \n        @media print \x7b\n            body \x7b background-color: white; padding: 0; \x7d\n            .report-container \x7b box-shadow: none; \x7d\n        \x7d\n        ".data

/-- Model of `HTMLRenderer._generate_html` (`renderers.py:52-71`): the document
skeleton, with the five band sections interpolated in source order —
title, page header, content, page footer, summary — threading the
renderer's variable state through content and summary.  A fresh renderer
starts with `self.variables = {}` (`renderers.py:20`). -/
def generateHtml (rd : ReportDefinition) (data : List Row)
    (params : VarMap) : Str :=
  let rvars0 : VarMap := []
  let t := renderTitle rd rvars0 params
  let ph := renderPageHeader rd rvars0 params
  let c := renderContent rd data params rvars0
  let pf := renderPageFooter rd params
  let s := renderSummary rd data params c.2.1
  "<!DOCTYPE html>\n<html>\n<head>\n    <meta charset=\x22UTF-8\x22>\n    <title>".data ++
  rd.name ++ "</title>\n    <style>".data ++ cssStyles rd ++
  "</style>\n</head>\n<body>\n    <div class=\x22report-container\x22>\n        ".data ++
  t ++ "\n        ".data ++ ph ++ "\n        ".data ++ c.1 ++ "\n        ".data ++
  pf ++ "\n        ".data ++ s.1 ++ "\n    </div>\n</body>\n</html>".data

/-! ## Band traversal order of the two renderers -/

/-- The order in which `HTMLRenderer._generate_html` (`renderers.py:52-71`)
invokes its band sections: title, pageHeader, the detail/group content,
pageFooter, summary — unconditionally (each section renders nothing when
its band is absent). -/
def htmlBandTraversal (_rd : ReportDefinition) (_data : List Row) : List Str :=
  ["title".data, "pageHeader".data, "content".data, "pageFooter".data, "summary".data]

/-- The order in which `PDFRenderer.render` (`renderers.py:430-449`)
appends band flowables to the story: title, pageHeader, content, then the
summary band, then the pageFooter band, each guarded by band presence
(content by data presence). -/
def pdfBandTraversal (rd : ReportDefinition) (data : List Row) : List Str :=
  (if hasBandKey rd.bands ("title".data) then ["title".data] else []) ++
  (if hasBandKey rd.bands ("pageHeader".data) then ["pageHeader".data] else []) ++
  (if data ≠ [] then ["content".data] else []) ++
  (if hasBandKey rd.bands ("summary".data) then ["summary".data] else []) ++
  (if hasBandKey rd.bands ("pageFooter".data) then ["pageFooter".data] else [])

/-! ## `core.py` — the Report Facade and HTML generation -/

/-- The facade state relevant to `generate_html`: the parsed (immutable)
template and the bound data and parameters (`set_data` and
`set_parameters` store copies, `core.py:82,92`). -/
structure JasperReportState where
  reportDef : ReportDefinition
  data : List Row
  parameters : VarMap
  deriving Repr

/-- A fresh `JasperReport` facade: parse the template, bind `data` via
`set_data` and `parameters` via `set_parameters`.  Each fresh instance
holds exactly this state; the renderer constructed inside
`generate_html` is also fresh per call (`core.py:128-130`). -/
def mkFacade (rd : ReportDefinition) (data : List Row)
    (params : VarMap) : JasperReportState :=
  ⟨rd, data, params⟩

/-- Model of `JasperReport.generate_html` (`core.py:117-138`): when no data is
bound and the template has a query, the facade would first run the query
against the configured database (outside this model, `none`); otherwise a
fresh `HTMLRenderer` renders the bound state. -/
def generateHtmlFacade (st : JasperReportState) : Option Str :=
  if st.data = [] ∧ truthyStr st.reportDef.query then Option.none
  else some (generateHtml st.reportDef st.data st.parameters)

/-! ## Claim-specific inputs and specification-side definitions -/

/-- A single-reference expression `$X{name}` as written in a template. -/
def refExpr (tag : Char) (n : Str) : Str :=
  dollar :: tag :: lbrace :: (n ++ [rbrace])

/-- A well-formed reference name: nonempty, made of alphanumeric
characters and underscores (the shape of every field/variable/parameter
name in the repository's templates). -/
def goodName (n : Str) : Prop :=
  n ≠ [] ∧ ∀ c ∈ n, c.isAlphanum = true ∨ c = '_'

/-- First-occurrence deduplication of a key list. -/
def firstDedup : List PyVal → List PyVal
  | [] => []
  | k :: t => k :: firstDedup (t.filter (fun x => x ≠ k))
  termination_by l => l.length
  decreasing_by
    simp only [List.length_cons]
    exact Nat.lt_succ_of_le (t.length_filter_le _)

/-- Specification-side description of a Python-dict group-by, for
comparison with `groupBy`: one partition per distinct key value in
first-occurrence order, each partition holding every row of the whole
sequence whose key equals that value (regardless of adjacency). -/
def groupBySpec (data : List Row) (field : Str) : List (PyVal × List Row) :=
  (firstDedup (data.map (fun r => dictGet r field PyVal.none))).map
    (fun k => (k, data.filter (fun r => dictGet r field PyVal.none = k)))

/-- The three rows `[{k:1},{k:2},{k:1}]` of the grouping claim. -/
def rowsK121 : List Row :=
  [[("k".data, PyVal.int 1)], [("k".data, PyVal.int 2)], [("k".data, PyVal.int 1)]]

/-- The rows `[{g:"x",amt:10},{g:"x",amt:5},{g:"y",amt:7}]` of the
aggregation claim. -/
def rowsGAmt : List Row :=
  [[("g".data, PyVal.str ("x".data)), ("amt".data, PyVal.int 10)],
   [("g".data, PyVal.str ("x".data)), ("amt".data, PyVal.int 5)],
   [("g".data, PyVal.str ("y".data)), ("amt".data, PyVal.int 7)]]

/-- A Sum variable over `$F{amt}` whose reset scope is the group `g`. -/
def groupSumVar : Variable :=
  { name := "GroupSum".data, calculation := "Sum".data,
    expression := some ("$F\x7bamt\x7d".data),
    resetType := "Group".data, resetGroup := some ("g".data) }

/-- A Sum variable over `$F{amt}` whose reset scope is the report. -/
def reportSumVar : Variable :=
  { name := "ReportSum".data, calculation := "Sum".data,
    expression := some ("$F\x7bamt\x7d".data), resetType := "Report".data }

/-- A group-footer band displaying `$V{GroupSum}`. -/
def footerBandC2 : Band :=
  { name := "groupFooter".data, height := 20,
    elements := [{ x := 0, y := 0, width := 100, height := 20,
                   elementType := "textField".data,
                   expression := some ("$V\x7bGroupSum\x7d".data) }] }

/-- A summary band displaying `$V{ReportSum}`. -/
def summaryBandC2 : Band :=
  { name := "summary".data, height := 20,
    elements := [{ x := 0, y := 0, width := 100, height := 20,
                   elementType := "textField".data,
                   expression := some ("$V\x7bReportSum\x7d".data) }] }

/-- The aggregation-claim template: one group on `$F{g}`, the two Sum
variables, an empty detail band, the group footer and the summary. -/
def rdC2 : ReportDefinition :=
  { name := "T2".data,
    vars := [groupSumVar, reportSumVar],
    groups := [{ name := "g".data, expression := "$F\x7bg\x7d".data }],
    bands := [("detail".data, { name := "detail".data, height := 20, elements := [] }),
              ("groupFooter".data, footerBandC2),
              ("summary".data, summaryBandC2)] }

/-- An empty band under a given name. -/
def mkTrivBand (nm : Str) : Str × Band :=
  (nm, { name := nm, height := 20, elements := [] })

/-- A template carrying every parser-producible band kind, for the
band-order claim. -/
def rdC3 : ReportDefinition :=
  { name := "T3".data,
    bands := [mkTrivBand ("title".data), mkTrivBand ("pageHeader".data),
              mkTrivBand ("columnHeader".data), mkTrivBand ("detail".data),
              mkTrivBand ("columnFooter".data), mkTrivBand ("pageFooter".data),
              mkTrivBand ("summary".data)] }

/-- One bound data row for the band-order claim. -/
def rowsC3 : List Row := [[("a".data, PyVal.int 1)]]

/-- The detail-band element referencing the undeclared field `missing`. -/
def elC6 : ReportElement :=
  { x := 0, y := 0, width := 100, height := 20,
    elementType := "textField".data,
    expression := some ("$F\x7bmissing\x7d".data) }

/-- The detail band holding `elC6`. -/
def bandC6 : Band :=
  { name := "detail".data, height := 20, elements := [elC6] }

/-- The validation-claim template: no fields, no query, a single detail
band whose only TextField expression is `$F{missing}`. -/
def rdC6 : ReportDefinition :=
  { name := "T6".data, bands := [("detail".data, bandC6)] }

/-! # Helper lemmas -/

theorem goodChar_ne {c : Char} (h : c.isAlphanum = true ∨ c = '_') :
    c ≠ dollar ∧ c ≠ rbrace ∧ c ≠ '+' ∧ c ≠ squote ∧ c ≠ bslash ∧ c ≠ dquote := by
  rcases h with h | rfl
  · refine ⟨?_, ?_, ?_, ?_, ?_, ?_⟩ <;> (intro hc; subst hc; exact absurd h (by decide))
  · exact ⟨by decide, by decide, by decide, by decide, by decide, by decide⟩

theorem takeWhile_append_sentinel (p : Char → Bool) (n : Str) (y : Char) (ys : Str)
    (hn : ∀ c ∈ n, p c = true) (hy : p y = false) :
    (n ++ y :: ys).takeWhile p = n := by
  induction n with
  | nil => simp [List.takeWhile_cons, hy]
  | cons a t ih =>
    have ha := hn a (List.mem_cons_self a t)
    simp [List.takeWhile_cons, ha, ih (fun c hc => hn c (List.mem_cons_of_mem _ hc))]

theorem refMatch_exact (tag : Char) (n : Str) (hne : n ≠ [])
    (hn : ∀ c ∈ n, c ≠ rbrace) :
    refMatch tag (tag :: lbrace :: (n ++ [rbrace])) = some (n, []) := by
  have hname : (n ++ [rbrace]).takeWhile (fun c => c ≠ rbrace) = n := by
    apply takeWhile_append_sentinel
    · intro c hc; simpa using hn c hc
    · simp
  have hlen : n.length < (n ++ [rbrace]).length := by simp
  have hdrop : (n ++ [rbrace]).drop (n.length + 1) = [] := by
    have h1 : n.length + 1 = (n ++ [rbrace]).length := by simp
    rw [h1, List.drop_length]
  simp only [refMatch, hname, hdrop]
  simp [hne, hlen]

theorem subRefAux_no_dollar {tag : Char} {mk : Str → Str} {s : Str} (fuel : Nat)
    (h : dollar ∉ s) : subRefAux tag mk fuel s = s := by
  induction fuel generalizing s with
  | zero => cases s <;> simp [subRefAux]
  | succ m ih =>
    cases s with
    | nil => simp [subRefAux]
    | cons c cs =>
      simp only [List.mem_cons, not_or] at h
      simp [subRefAux, Ne.symm h.1, ih h.2]

theorem subRef_exact (tag : Char) (mk : Str → Str) (n : Str) (hne : n ≠ [])
    (hn : ∀ c ∈ n, c ≠ rbrace) :
    subRef tag mk (refExpr tag n) = mk n := by
  show subRefAux tag mk (refExpr tag n).length (refExpr tag n) = mk n
  rw [refExpr, List.length_cons, subRefAux]
  simp [refMatch_exact tag n hne hn, subRefAux]

theorem refMatch_ne_tag {tag t : Char} (rest : Str) (h : t ≠ tag) :
    refMatch tag (t :: rest) = Option.none := by
  cases rest with
  | nil => rfl
  | cons ob r2 =>
    simp only [refMatch]
    rw [if_neg (fun hc => h hc.1)]

theorem subRef_other_tag {tag t : Char} (mk : Str → Str) (rest : Str)
    (hne : t ≠ tag) (hrest : dollar ∉ t :: rest) :
    subRef tag mk (dollar :: t :: rest) = dollar :: t :: rest := by
  show subRefAux tag mk (dollar :: t :: rest).length (dollar :: t :: rest) = _
  rw [List.length_cons, subRefAux]
  simp [refMatch_ne_tag rest hne, subRefAux_no_dollar _ hrest]

theorem isPrefixOf_mem {pat l : Str} {x : Char} (hp : pat.isPrefixOf l = true)
    (hx : x ∈ pat) : x ∈ l :=
  (List.isPrefixOf_iff_prefix.mp hp).subset hx

theorem replaceAux_not_mem {pat rep s : Str} {x : Char} (fuel : Nat)
    (hx : x ∈ pat) (hs : x ∉ s) : replaceAux pat rep fuel s = s := by
  induction fuel generalizing s with
  | zero => cases s <;> simp [replaceAux]
  | succ m ih =>
    cases s with
    | nil => simp [replaceAux]
    | cons c cs =>
      have hpre : pat.isPrefixOf (c :: cs) = false := by
        cases hp : pat.isPrefixOf (c :: cs)
        · rfl
        · exact absurd (isPrefixOf_mem hp hx) hs
      have hcs : x ∉ cs := fun hc => hs (List.mem_cons_of_mem _ hc)
      simp [replaceAux, hpre, ih hcs]

theorem containsSub_not_mem {pat s : Str} {x : Char} (hx : x ∈ pat) (hs : x ∉ s) :
    containsSub pat s = false := by
  induction s with
  | nil =>
    have : pat ≠ [] := fun hp => by subst hp; exact absurd hx (List.not_mem_nil x)
    simp [containsSub, this]
  | cons c cs ih =>
    have hpre : pat.isPrefixOf (c :: cs) = false := by
      cases hp : pat.isPrefixOf (c :: cs)
      · rfl
      · exact absurd (isPrefixOf_mem hp hx) hs
    simp [containsSub, hpre, ih (fun hc => hs (List.mem_cons_of_mem _ hc))]

theorem plusRewrite_id {e : Str} (he : '+' ∉ e) : plusRewrite e = e := by
  have h1 : pyReplace e (" + ".data) (" + str(".data) = e :=
    replaceAux_not_mem _ (by decide) he
  have h2 : containsSub (" + str(".data) e = false :=
    containsSub_not_mem (by decide) he
  simp [plusRewrite, h1, h2]

theorem not_mem_getCall {x : Char} {obj n : Str} (hpre : x ∉ getCallPre obj)
    (hsuf : x ∉ getCallSuf) (hn : x ∉ n) : x ∉ getCall obj n := by
  simp only [getCall, List.mem_append, not_or]
  exact ⟨⟨hpre, hn⟩, hsuf⟩

theorem getCallArg_self (obj n : Str) (h1 : squote ∉ n) (h2 : bslash ∉ n) :
    getCallArg obj (getCall obj n) = some n := by
  have hpre : (getCallPre obj).isPrefixOf (getCall obj n) = true := by
    rw [getCall, List.append_assoc]
    exact List.isPrefixOf_iff_prefix.mpr (List.prefix_append _ _)
  have hdrop : (getCall obj n).drop (getCallPre obj).length = n ++ getCallSuf := by
    rw [getCall, List.append_assoc, List.drop_left]
  have hsuf : getCallSuf.isSuffixOf (n ++ getCallSuf) = true :=
    List.isSuffixOf_iff_suffix.mpr (List.suffix_append _ _)
  have htake : (n ++ getCallSuf).take ((n ++ getCallSuf).length - getCallSuf.length) = n := by
    have : (n ++ getCallSuf).length - getCallSuf.length = n.length := by simp
    rw [this, List.take_left]
  simp [getCallArg, stripPre, stripSuf, hpre, hdrop, hsuf, htake, h1, h2]

theorem not_dollar_refTail {t : Char} (n : Str) (ht : t ≠ dollar)
    (hn : dollar ∉ n) : dollar ∉ t :: lbrace :: (n ++ [rbrace]) := by
  intro h
  rcases List.mem_cons.mp h with h | h
  · exact ht h.symm
  rcases List.mem_cons.mp h with h | h
  · exact absurd h.symm (by decide)
  rcases List.mem_append.mp h with h | h
  · exact hn h
  · simp at h; exact absurd h.symm (by decide)

theorem transformExpr_F (n : Str) (hg : goodName n) :
    transformExpr (refExpr 'F' n) = getCall ("data".data) n := by
  obtain ⟨hne, hgood⟩ := hg
  have hnbr : ∀ c ∈ n, c ≠ rbrace := fun c hc => (goodChar_ne (hgood c hc)).2.1
  have hnd : dollar ∉ n := fun hd => (goodChar_ne (hgood dollar hd)).1 rfl
  have hplus : '+' ∉ getCall ("data".data) n := by
    apply not_mem_getCall (by decide) (by decide)
    intro hp; exact (goodChar_ne (hgood '+' hp)).2.2.1 rfl
  have hcd : stripCDATA (refExpr 'F' n) = refExpr 'F' n := rfl
  have hdgc : dollar ∉ getCall ("data".data) n :=
    not_mem_getCall (by decide) (by decide) hnd
  rw [transformExpr, hcd]
  rw [show subF (refExpr 'F' n) = getCall ("data".data) n from subRef_exact _ _ n hne hnbr]
  rw [show subV (getCall ("data".data) n) = getCall ("data".data) n from
    subRefAux_no_dollar _ hdgc]
  rw [show subP (getCall ("data".data) n) = getCall ("data".data) n from
    subRefAux_no_dollar _ hdgc]
  exact plusRewrite_id hplus

theorem transformExpr_V (n : Str) (hg : goodName n) :
    transformExpr (refExpr 'V' n) = getCall ("variables".data) n := by
  obtain ⟨hne, hgood⟩ := hg
  have hnbr : ∀ c ∈ n, c ≠ rbrace := fun c hc => (goodChar_ne (hgood c hc)).2.1
  have hnd : dollar ∉ n := fun hd => (goodChar_ne (hgood dollar hd)).1 rfl
  have hdgc : dollar ∉ getCall ("variables".data) n :=
    not_mem_getCall (by decide) (by decide) hnd
  have hplus : '+' ∉ getCall ("variables".data) n := by
    apply not_mem_getCall (by decide) (by decide)
    intro hp; exact (goodChar_ne (hgood '+' hp)).2.2.1 rfl
  have hcd : stripCDATA (refExpr 'V' n) = refExpr 'V' n := rfl
  rw [transformExpr, hcd]
  rw [show subF (refExpr 'V' n) = refExpr 'V' n from
    subRef_other_tag _ _ (by decide) (not_dollar_refTail n (by decide) hnd)]
  rw [show subV (refExpr 'V' n) = getCall ("variables".data) n from
    subRef_exact _ _ n hne hnbr]
  rw [show subP (getCall ("variables".data) n) = getCall ("variables".data) n from
    subRefAux_no_dollar _ hdgc]
  exact plusRewrite_id hplus

theorem transformExpr_P (n : Str) (hg : goodName n) :
    transformExpr (refExpr 'P' n) = getCall ("parameters".data) n := by
  obtain ⟨hne, hgood⟩ := hg
  have hnbr : ∀ c ∈ n, c ≠ rbrace := fun c hc => (goodChar_ne (hgood c hc)).2.1
  have hnd : dollar ∉ n := fun hd => (goodChar_ne (hgood dollar hd)).1 rfl
  have hdgc : dollar ∉ getCall ("parameters".data) n :=
    not_mem_getCall (by decide) (by decide) hnd
  have hplus : '+' ∉ getCall ("parameters".data) n := by
    apply not_mem_getCall (by decide) (by decide)
    intro hp; exact (goodChar_ne (hgood '+' hp)).2.2.1 rfl
  have hcd : stripCDATA (refExpr 'P' n) = refExpr 'P' n := rfl
  rw [transformExpr, hcd]
  rw [show subF (refExpr 'P' n) = refExpr 'P' n from
    subRef_other_tag _ _ (by decide) (not_dollar_refTail n (by decide) hnd)]
  rw [show subV (refExpr 'P' n) = refExpr 'P' n from
    subRef_other_tag _ _ (by decide) (not_dollar_refTail n (by decide) hnd)]
  rw [show subP (refExpr 'P' n) = getCall ("parameters".data) n from
    subRef_exact _ _ n hne hnbr]
  exact plusRewrite_id hplus

theorem quote_not_prefix_getCall (obj n : Str) :
    [dquote].isPrefixOf (getCall obj n) = false := by
  rw [show getCall obj n
      = 's' :: (("elf.".data ++ obj ++ ".get(\x27".data) ++ n ++ getCallSuf) from rfl]
  rfl

theorem evaluateWith_eval_some {ev : Str → Option PyVal} {e t : Str} {v : PyVal}
    (hne : e ≠ []) (ht : transformExpr e = t)
    (hq : [dquote].isPrefixOf t = false) (hev : ev t = some v) :
    evaluateWith ev e = pyValStr v := by
  rw [evaluateWith, if_neg hne, ht]
  rw [if_neg (fun hc => by rw [hq] at hc; exact absurd hc.1 (by simp))]
  rw [hev]

theorem dictGet_of_none {m : VarMap} {k : Str} {d : PyVal}
    (h : dictGet? m k = Option.none) : dictGet m k d = d := by
  rw [dictGet, h]; rfl

theorem mem_of_mem_firstDedup : ∀ (l : List PyVal) (x : PyVal), x ∈ firstDedup l → x ∈ l
  | [], x, h => by simp [firstDedup] at h
  | k :: t, x, h => by
    rw [firstDedup] at h
    rcases List.mem_cons.mp h with rfl | h2
    · exact List.mem_cons_self _ _
    · exact List.mem_cons_of_mem _
        (List.mem_of_mem_filter (mem_of_mem_firstDedup _ x h2))
  termination_by l => l.length
  decreasing_by
    simp only [List.length_cons]
    exact Nat.lt_succ_of_le (t.length_filter_le _)

theorem mem_firstDedup_of_mem : ∀ (l : List PyVal) (x : PyVal), x ∈ l → x ∈ firstDedup l
  | k :: t, x, h => by
    rw [firstDedup]
    by_cases hxk : x = k
    · subst hxk; exact List.mem_cons_self _ _
    · rcases List.mem_cons.mp h with rfl | h2
      · exact absurd rfl hxk
      · exact List.mem_cons_of_mem _
          (mem_firstDedup_of_mem _ x (List.mem_filter.mpr ⟨h2, by simpa using hxk⟩))
  termination_by l => l.length
  decreasing_by
    simp only [List.length_cons]
    exact Nat.lt_succ_of_le (t.length_filter_le _)

theorem nodup_firstDedup : ∀ (l : List PyVal), (firstDedup l).Nodup
  | [] => by rw [firstDedup]; exact List.nodup_nil
  | k :: t => by
    rw [firstDedup]
    refine List.Nodup.cons ?_ (nodup_firstDedup _)
    intro hk
    have := List.mem_filter.mp (mem_of_mem_firstDedup _ _ hk)
    simp at this
  termination_by l => l.length
  decreasing_by
    simp only [List.length_cons]
    exact Nat.lt_succ_of_le (t.length_filter_le _)

theorem firstDedup_snoc : ∀ (l : List PyVal) (k : PyVal),
    firstDedup (l ++ [k]) = if k ∈ l then firstDedup l else firstDedup l ++ [k]
  | [], k => by simp [firstDedup]
  | a :: t, k => by
    rw [List.cons_append, firstDedup, List.filter_append]
    by_cases hka : k = a
    · subst hka
      simp only [List.filter_cons, List.filter_nil]
      rw [if_neg (by simp)]
      rw [List.append_nil, if_pos (List.mem_cons_self _ _), firstDedup]
    · simp only [List.filter_cons, List.filter_nil]
      rw [if_pos (by simpa using hka)]
      rw [firstDedup_snoc (t.filter (fun x => x ≠ a)) k]
      by_cases hkt : k ∈ t
      · rw [if_pos (List.mem_filter.mpr ⟨hkt, by simpa using hka⟩),
          if_pos (List.mem_cons_of_mem _ hkt), firstDedup]
      · rw [if_neg (fun hc => hkt (List.mem_of_mem_filter hc))]
        rw [if_neg (fun hc => by rcases List.mem_cons.mp hc with h | h; exact hka h; exact hkt h)]
        rw [firstDedup, List.cons_append]
  termination_by l _ => l.length
  decreasing_by
    simp only [List.length_cons]
    exact Nat.lt_succ_of_le (t.length_filter_le _)

theorem insertRow_map (F : PyVal → List Row) (k : PyVal) (r : Row) :
    ∀ (L : List PyVal), L.Nodup →
    insertRow (L.map (fun x => (x, F x))) k r =
      (if k ∈ L then
        L.map (fun x => (x, F x ++ if k = x then [r] else []))
      else
        L.map (fun x => (x, F x)) ++ [(k, [r])])
  | [], _ => by simp [insertRow]
  | a :: t, hnd => by
    have hat : a ∉ t := (List.nodup_cons.mp hnd).1
    have hndt : t.Nodup := (List.nodup_cons.mp hnd).2
    rw [List.map_cons, insertRow]
    by_cases hak : a = k
    · subst hak
      rw [if_pos rfl, if_pos (List.mem_cons_self _ _), List.map_cons]
      rw [if_pos rfl]
      congr 1
      apply List.map_congr_left
      intro x hx
      rw [if_neg (fun hc => hat (by rw [hc]; exact hx)), List.append_nil]
    · rw [if_neg hak, insertRow_map F k r t hndt]
      by_cases hkt : k ∈ t
      · rw [if_pos hkt, if_pos (List.mem_cons_of_mem _ hkt), List.map_cons]
        rw [if_neg (fun hc => hak hc.symm), List.append_nil]
      · rw [if_neg hkt,
          if_neg (fun hc => by rcases List.mem_cons.mp hc with h | h; exact hak h.symm; exact hkt h),
          List.cons_append]

theorem groupBy_snoc (data : List Row) (f : Str) (r : Row) :
    groupBy (data ++ [r]) f =
      insertRow (groupBy data f) (dictGet r f PyVal.none) r := by
  rw [groupBy, groupBy, List.foldl_append]
  rfl

theorem groupBy_eq_groupBySpec (data : List Row) (f : Str) :
    groupBy data f = groupBySpec data f := by
  induction data using List.reverseRecOn with
  | nil => simp [groupBy, groupBySpec, firstDedup]
  | append_singleton data r ih =>
    rw [groupBy_snoc, ih]
    set k := dictGet r f PyVal.none with hk
    rw [groupBySpec, groupBySpec]
    rw [insertRow_map _ k r _ (nodup_firstDedup _)]
    have hmapsnoc : (data ++ [r]).map (fun r0 => dictGet r0 f PyVal.none)
        = data.map (fun r0 => dictGet r0 f PyVal.none) ++ [k] := by
      rw [List.map_append]; rfl
    rw [hmapsnoc, firstDedup_snoc]
    have hmemiff : k ∈ firstDedup (data.map (fun r0 => dictGet r0 f PyVal.none))
        ↔ k ∈ data.map (fun r0 => dictGet r0 f PyVal.none) :=
      ⟨mem_of_mem_firstDedup _ _, mem_firstDedup_of_mem _ _⟩
    by_cases hkm : k ∈ data.map (fun r0 => dictGet r0 f PyVal.none)
    · rw [if_pos hkm, if_pos (hmemiff.mpr hkm)]
      apply List.map_congr_left
      intro x hx
      have hfil : (data ++ [r]).filter (fun r0 => dictGet r0 f PyVal.none = x)
          = data.filter (fun r0 => dictGet r0 f PyVal.none = x)
            ++ if k = x then [r] else [] := by
        rw [List.filter_append]
        congr 1
        simp only [List.filter_cons, List.filter_nil]
        by_cases hc : k = x
        · rw [if_pos (by simpa using hc), if_pos hc]
        · rw [if_neg (by simpa using hc), if_neg hc]
      rw [hfil]
    · rw [if_neg hkm, if_neg (fun hc => hkm (hmemiff.mp hc)), List.map_append]
      congr 1
      · apply List.map_congr_left
        intro x hx
        have hxk : ¬ (k = x) := fun hc =>
          hkm (hc ▸ mem_of_mem_firstDedup _ _ hx)
        rw [List.filter_append]
        simp only [List.filter_cons, List.filter_nil]
        rw [if_neg (by simpa using hxk), List.append_nil]
      · simp only [List.map_cons, List.map_nil]
        have hnil : data.filter (fun r0 => dictGet r0 f PyVal.none = k) = [] := by
          rw [List.filter_eq_nil_iff]
          intro a ha hc
          exact hkm (by
            simp only [List.mem_map]
            exact ⟨a, ha, by simpa using hc⟩)
        rw [List.filter_append, hnil]
        simp only [List.filter_cons, List.filter_nil, List.nil_append]
        rw [if_pos (by simp)]

theorem mem_fieldRefIssues {rd : ReportDefinition} {bn : Str} {band : Band}
    {el : ReportElement} {name : Str}
    (hb : (bn, band) ∈ rd.bands) (he : el ∈ band.elements)
    (hex : truthyStr el.expression = true)
    (hname : name ∈ findRefs 'F' (el.expression.getD []))
    (hfields : ∀ f ∈ rd.fields, f.name ≠ name) :
    refIssueStr name ∈ fieldRefIssues rd := by
  rw [fieldRefIssues, List.mem_flatMap]
  refine ⟨(bn, band), hb, ?_⟩
  rw [List.mem_flatMap]
  refine ⟨el, he, ?_⟩
  rw [if_pos hex, List.mem_filterMap]
  refine ⟨name, hname, ?_⟩
  rw [if_neg ?_]
  intro hc
  rcases List.any_eq_true.mp hc with ⟨f, hf, hfn⟩
  exact hfields f hf (of_decide_eq_true hfn)

/-! # The claims -/

/-- C1, counterexample: grouping `[{k:1},{k:2},{k:1}]` by `k` yields two
partitions of sizes 2 and 1 (the two `k = 1` rows merged), not three
partitions of size 1: adjacent-equal partitioning does not hold. -/
theorem c1_counterexample :
    (groupBy rowsK121 ("k".data)).map (fun p => p.2.length) = [2, 1] ∧
    (groupBy rowsK121 ("k".data)).map (fun p => p.2.length) ≠ [1, 1, 1] := by
  decide

/-- C1, amended: `DataProcessor.group_by` partitions rows into
equality classes of the evaluated group-key value over the whole row
sequence (a dict-based group-by in first-occurrence key order), not into
contiguous runs; in particular `[{k:1},{k:2},{k:1}]` grouped by `k`
yields two partitions of sizes 2 and 1. -/
theorem c1_amended :
    (∀ (data : List Row) (f : Str), groupBy data f = groupBySpec data f) ∧
    (groupBy rowsK121 ("k".data)).map (fun p => p.2.length) = [2, 1] :=
  ⟨groupBy_eq_groupBySpec, by decide⟩

set_option maxRecDepth 4000 in
/-- C2: for rows `[{g:"x",amt:10},{g:"x",amt:5},{g:"y",amt:7}]` grouped on
`g`, a group-scoped Sum variable over `amt` exposes 15 and then 7 in the
variable maps read by the successive group-footer renders (and those
totals appear in the rendered footer bands), while the Report-scoped Sum
variable holds the whole-sequence total 22 at the summary render (appearing
in the rendered summary band); 22 is the sum of `amt` over all rows. -/
theorem c2_sum_variable_scopes :
    ((renderGroupedContent rdC2 rowsGAmt [] []).2.2.map
        (fun vs => dictGet? vs ("GroupSum".data))
      = [some (PyVal.int 15), some (PyVal.int 7)]) ∧
    containsSub (">15</div>".data) (renderGroupedContent rdC2 rowsGAmt [] []).1 = true ∧
    containsSub (">7</div>".data) (renderGroupedContent rdC2 rowsGAmt [] []).1 = true ∧
    dictGet? (renderSummary rdC2 rowsGAmt []
        (renderGroupedContent rdC2 rowsGAmt [] []).2.1).2 ("ReportSum".data)
      = some (PyVal.int 22) ∧
    containsSub (">22</div>".data)
      (renderSummary rdC2 rowsGAmt [] (renderGroupedContent rdC2 rowsGAmt [] []).2.1).1
      = true ∧
    calculateSum rowsGAmt ("amt".data) = 22 := by
  decide

/-- C3: on a template carrying every band (and bound data), the HTML
renderer traverses title, pageHeader, content, pageFooter, summary, while
`PDFRenderer.render` appends the summary band to the story before the
pageFooter band — the two renderers do not traverse bands in the same
order, and in the PDF the summary precedes the pageFooter. -/
theorem c3_pdf_band_order_bug :
    htmlBandTraversal rdC3 rowsC3
      = ["title".data, "pageHeader".data, "content".data, "pageFooter".data,
         "summary".data] ∧
    pdfBandTraversal rdC3 rowsC3
      = ["title".data, "pageHeader".data, "content".data, "summary".data,
         "pageFooter".data] ∧
    (htmlBandTraversal rdC3 rowsC3).indexOf ("pageFooter".data)
      < (htmlBandTraversal rdC3 rowsC3).indexOf ("summary".data) ∧
    (pdfBandTraversal rdC3 rowsC3).indexOf ("summary".data)
      < (pdfBandTraversal rdC3 rowsC3).indexOf ("pageFooter".data) := by
  decide

/-- C4, counterexample: the expression `$F{x} y` cannot be evaluated
(its substituted form is a Python syntax error), and `evaluate` returns
the substituted text `self.data.get(...) y` — not the original literal
text unchanged. -/
theorem c4_counterexample :
    evaluate [] [] [] ("$F\x7bx\x7d y".data)
      = "self.data.get(\x27x\x27, \x27\x27) y".data ∧
    evaluate [] [] [] ("$F\x7bx\x7d y".data) ≠ "$F\x7bx\x7d y".data := by
  decide

/-- C4, amended: for every expression that cannot be evaluated
structurally (the `eval` oracle fails on the transformed text, which is
not a double-quoted literal), `evaluate` never raises and returns the
expression text *after* reference substitution and concatenation
rewriting — which equals the original literal text only when no rewrite
applies. -/
theorem c4_amended (ev : Str → Option PyVal) (e : Str) (hne : e ≠ [])
    (hq : [dquote].isPrefixOf (transformExpr e) = false)
    (hev : ev (transformExpr e) = Option.none) :
    evaluateWith ev e = transformExpr e := by
  rw [evaluateWith, if_neg hne,
    if_neg (fun hc => by rw [hq] at hc; exact absurd hc.1 (by simp)), hev]

/-- Witness for C4 at the concrete failing expression `$F{x} y`. -/
theorem c4_witness :
    evaluateWith (pyEvalModel [] [] []) ("$F\x7bx\x7d y".data)
      = transformExpr ("$F\x7bx\x7d y".data) :=
  c4_amended (pyEvalModel [] [] []) ("$F\x7bx\x7d y".data)
    (by decide) (by decide) (by decide)

/-- C5: a field, variable or parameter reference `$F{n}` / `$V{n}` /
`$P{n}` whose (well-formed) name is absent from the supplied row,
variable map and parameter map evaluates to the empty string — the
substituted `get` call falls back to the empty-string default — and
evaluation is a total function (it never raises). -/
theorem c5_unknown_reference_empty (data vars params : VarMap) (n : Str)
    (hg : goodName n)
    (hd : dictGet? data n = Option.none) (hv : dictGet? vars n = Option.none)
    (hp : dictGet? params n = Option.none) :
    evaluate data vars params (refExpr 'F' n) = [] ∧
    evaluate data vars params (refExpr 'V' n) = [] ∧
    evaluate data vars params (refExpr 'P' n) = [] := by
  have hq : squote ∉ n := fun h => (goodChar_ne (hg.2 squote h)).2.2.2.1 rfl
  have hb : bslash ∉ n := fun h => (goodChar_ne (hg.2 bslash h)).2.2.2.2.1 rfl
  refine ⟨?_, ?_, ?_⟩
  · rw [evaluate, evaluateWith_eval_some (by simp [refExpr]) (transformExpr_F n hg)
      (quote_not_prefix_getCall _ n)
      (show pyEvalModel data vars params (getCall ("data".data) n)
          = some (dictGet data n (PyVal.str [])) from by
        rw [pyEvalModel, getCallArg_self _ n hq hb])]
    rw [dictGet_of_none hd]; rfl
  · rw [evaluate, evaluateWith_eval_some (by simp [refExpr]) (transformExpr_V n hg)
      (quote_not_prefix_getCall _ n)
      (show pyEvalModel data vars params (getCall ("variables".data) n)
          = some (dictGet vars n (PyVal.str [])) from by
        rw [pyEvalModel]
        rw [show getCallArg ("data".data) (getCall ("variables".data) n)
            = Option.none from rfl]
        rw [getCallArg_self _ n hq hb])]
    rw [dictGet_of_none hv]; rfl
  · rw [evaluate, evaluateWith_eval_some (by simp [refExpr]) (transformExpr_P n hg)
      (quote_not_prefix_getCall _ n)
      (show pyEvalModel data vars params (getCall ("parameters".data) n)
          = some (dictGet params n (PyVal.str [])) from by
        rw [pyEvalModel]
        rw [show getCallArg ("data".data) (getCall ("parameters".data) n)
            = Option.none from rfl]
        rw [show getCallArg ("variables".data) (getCall ("parameters".data) n)
            = Option.none from rfl]
        rw [getCallArg_self _ n hq hb])]
    rw [dictGet_of_none hp]; rfl

/-- Witness for C5 at the concrete reference name `nonexistent` against
empty row, variable and parameter maps. -/
theorem c5_witness :
    evaluate [] [] [] (refExpr 'F' ("nonexistent".data)) = [] ∧
    evaluate [] [] [] (refExpr 'V' ("nonexistent".data)) = [] ∧
    evaluate [] [] [] (refExpr 'P' ("nonexistent".data)) = [] :=
  c5_unknown_reference_empty [] [] [] ("nonexistent".data)
    ⟨by decide, by decide⟩ rfl rfl rfl

/-- C6: the template whose only TextField expression is `$F{missing}`
and which declares no fields validates to `valid = false` with an issue
naming `missing`; and in general, for every band of every template, every
element expression and every `$F{name}` token in it whose name matches no
declared field, `validate_report` reports the corresponding issue. -/
theorem c6_validate_dangling_reference :
    ((validateReport rdC6 [] Option.none).valid = false ∧
      refIssueStr ("missing".data) ∈ (validateReport rdC6 [] Option.none).issues ∧
      containsSub ("missing".data) (refIssueStr ("missing".data)) = true) ∧
    (∀ (rd : ReportDefinition) (data : List Row) (dbTest : Option Bool)
       (bn : Str) (band : Band) (el : ReportElement) (name : Str),
       (bn, band) ∈ rd.bands → el ∈ band.elements →
       truthyStr el.expression = true →
       name ∈ findRefs 'F' (el.expression.getD []) →
       (∀ f ∈ rd.fields, f.name ≠ name) →
       refIssueStr name ∈ (validateReport rd data dbTest).issues) := by
  constructor
  · exact ⟨by decide, by decide, by decide⟩
  · intro rd data dbTest bn band el name hb he hex hname hfields
    have hmem := mem_fieldRefIssues hb he hex hname hfields
    show refIssueStr name ∈ (validateReport rd data dbTest).issues
    simp only [validateReport]
    exact List.mem_append.mpr (Or.inl (List.mem_append.mpr (Or.inr hmem)))

/-- Witness for C6: the general scanning property applied to the
concrete template `rdC6` and the token `missing`. -/
theorem c6_witness :
    refIssueStr ("missing".data) ∈ (validateReport rdC6 [] Option.none).issues :=
  c6_validate_dangling_reference.2 rdC6 [] Option.none ("detail".data) bandC6 elC6
    ("missing".data) (by decide) (by decide) (by decide) (by decide) (by decide)

/-- C7: whatever the parsed document contains, `_parse_bands` produces a
band mapping whose keys all come from the fixed eight band kinds; the
keys `groupHeader` and `groupFooter` never occur, so the membership tests
guarding the renderers' group-header/group-footer branches
(`renderers.py:203,228`) are false for every parsed template. -/
theorem c7_parsed_bands_keys (find : Str → Option Band) (k : Str)
    (hk : k ∈ (parseBands find).map Prod.fst) :
    k ∈ bandTypes ∧
    hasBandKey (parseBands find) ("groupHeader".data) = false ∧
    hasBandKey (parseBands find) ("groupFooter".data) = false := by
  have hkeys : ∀ p ∈ parseBands find, p.1 ∈ bandTypes := by
    intro p hp
    rcases List.mem_filterMap.mp hp with ⟨bt, hbt, hmk⟩
    rcases Option.map_eq_some'.mp hmk with ⟨b, _, rfl⟩
    exact hbt
  refine ⟨?_, ?_, ?_⟩
  · rcases List.mem_map.mp hk with ⟨p, hp, rfl⟩
    exact hkeys p hp
  · rw [hasBandKey]
    cases hf : (parseBands find).find? (fun p => p.1 = "groupHeader".data) with
    | none => rfl
    | some pr =>
      have h1 := hkeys pr (List.mem_of_find?_eq_some hf)
      have h2 := List.find?_some hf
      rw [decide_eq_true_eq] at h2
      rw [h2] at h1
      exact absurd h1 (by decide)
  · rw [hasBandKey]
    cases hf : (parseBands find).find? (fun p => p.1 = "groupFooter".data) with
    | none => rfl
    | some pr =>
      have h1 := hkeys pr (List.mem_of_find?_eq_some hf)
      have h2 := List.find?_some hf
      rw [decide_eq_true_eq] at h2
      rw [h2] at h1
      exact absurd h1 (by decide)

/-- Witness for C7 at a document in which `find` locates a band for
every requested kind. -/
theorem c7_witness :
    ("title".data ∈ bandTypes) ∧
    hasBandKey (parseBands (fun bt => some { name := bt, height := 0 }))
      ("groupHeader".data) = false ∧
    hasBandKey (parseBands (fun bt => some { name := bt, height := 0 }))
      ("groupFooter".data) = false :=
  c7_parsed_bands_keys (fun bt => some { name := bt, height := 0 })
    ("title".data) (by decide)

/-- C8: with no pre-bound data, a configured engine and a nonempty query,
a failing `execute_query` makes `preview_data` return the empty list
rather than propagating the exception. -/
theorem c8_preview_failure_empty (dbt q msg : Str)
    (exec : Str → Except Str (List Row)) (limit : Nat) (hq : q ≠ [])
    (hex : exec (buildPreviewQuery dbt q limit) = Except.error msg) :
    previewData [] (some dbt) (some q) exec limit = [] := by
  simp [previewData, hq, hex]

/-- Witness for C8 at a concrete query whose execution always fails. -/
theorem c8_witness :
    previewData [] (some ("sqlite".data)) (some ("SELECT 1".data))
      (fun _ => Except.error ("boom".data)) 10 = [] :=
  c8_preview_failure_empty ("sqlite".data) ("SELECT 1".data) ("boom".data)
    (fun _ => Except.error ("boom".data)) 10 (by decide) rfl

/-- C9: a query text wrapped in the literal-data escape marker
`<![CDATA[...]]>` parses to the (stripped) inner text, with no wrapper
characters remaining. -/
theorem c9_cdata_stripping (q : Str) :
    parseQuery (some (cdataPre ++ q ++ cdataSuf)) = some (pyStrip q) := by
  have hcons : cdataPre ++ q ++ cdataSuf
      = '<' :: ("![CDATA[".data ++ q ++ cdataSuf) := rfl
  have hne : cdataPre ++ q ++ cdataSuf ≠ [] := by rw [hcons]; simp
  have hstrip : pyStrip (cdataPre ++ q ++ cdataSuf) = cdataPre ++ q ++ cdataSuf := by
    rw [pyStrip, hcons, List.dropWhile_cons]
    rw [if_neg (by decide)]
    rw [← hcons, List.reverse_append, show cdataSuf.reverse = '>' :: "]]".data from rfl]
    rw [List.cons_append, List.dropWhile_cons]
    rw [if_neg (by decide)]
    rw [← List.cons_append, ← (show cdataSuf.reverse = '>' :: "]]".data from rfl),
      ← List.reverse_append, List.reverse_reverse]
  have hpre : cdataPre.isPrefixOf (cdataPre ++ q ++ cdataSuf) = true := by
    rw [List.append_assoc]
    exact List.isPrefixOf_iff_prefix.mpr (List.prefix_append _ _)
  have hsuf : cdataSuf.isSuffixOf (cdataPre ++ q ++ cdataSuf) = true :=
    List.isSuffixOf_iff_suffix.mpr (List.suffix_append _ _)
  have hdrop : (cdataPre ++ q ++ cdataSuf).drop 9 = q ++ cdataSuf := by
    rw [List.append_assoc, show (9 : Nat) = cdataPre.length from rfl, List.drop_left]
  have hlen : (cdataPre ++ q ++ cdataSuf).length - 12 = q.length := by
    rw [List.length_append, List.length_append,
      show cdataPre.length = 9 from rfl, show cdataSuf.length = 3 from rfl]
    omega
  have htake : (q ++ cdataSuf).take q.length = q := List.take_left _ _
  rw [parseQuery, if_neg hne, hstrip, stripCDATA, if_pos ⟨hpre, hsuf⟩, hdrop, hlen, htake]

/-- C10: generating HTML from two fresh Report Facade instances built
from the same parsed template, the same bound data and the same
parameters yields identical output — the renderer state the facade
creates per call is fully determined by those three inputs. -/
theorem c10_generate_html_deterministic (rd : ReportDefinition)
    (data : List Row) (params : VarMap) (s1 s2 : JasperReportState)
    (h1 : s1 = mkFacade rd data params) (h2 : s2 = mkFacade rd data params) :
    generateHtmlFacade s1 = generateHtmlFacade s2 := by
  subst h1; subst h2; rfl

/-- Witness for C10 at a concrete template, data set and parameter map. -/
theorem c10_witness :
    generateHtmlFacade (mkFacade { name := "W".data } [] []) =
      generateHtmlFacade (mkFacade { name := "W".data } [] []) :=
  c10_generate_html_deterministic { name := "W".data } [] []
    (mkFacade { name := "W".data } [] []) (mkFacade { name := "W".data } [] [])
    rfl rfl

end PyJasper
